import Mathlib

/-!
Shallow embedding of `src/liveweb/filetools.py` (Python 2).

Streams are modelled as `List Char` (Python 2 `str` is a byte string; one
`Char` per byte).  Mutation is modelled by explicit state passing: each
method returns the updated object, and a method that may raise returns an
`Except` for its result while still returning the mutated state (Python
mutates `self` before the `raise`, and the exception propagates past the
`return`).
-/

set_option autoImplicit false

namespace Liveweb

/-- The `SizeLimitExceeded(IOError)` exception, carrying the two values that
`_check_size` interpolates into its message: the observed byte count and the
configured maximum. -/
structure SizeLimitExceeded where
  current_size : Nat
  max_size : Nat
deriving DecidableEq

/-- The `max_size` parameter as the Python code treats it: `_check_size`
guards on its truthiness (`if self.max_size:`) and compares against
`int(self.max_size)`, so the value may be `None`, an int, or a (numeric)
string.  `None`, `0` and `""` are the falsy values. -/
inductive PyMaxSize where
  | pyNone
  | pyInt (n : Nat)
  | pyStr (s : String)
deriving DecidableEq

/-- Python truthiness of a `max_size` value. -/
def PyMaxSize.truthy : PyMaxSize → Bool
  | PyMaxSize.pyNone => false
  | PyMaxSize.pyInt n => n != 0
  | PyMaxSize.pyStr s => s != ""

/-- `int(s)` for the numeric strings the configuration may supply. -/
def strToNat (s : String) : Nat :=
  s.data.foldl (fun a c => a * 10 + (c.toNat - 48)) 0

/-- Whether Python 2 `int(s)` accepts the string: a non-empty run of
digits (signs and whitespace padding are not modelled; the configuration
values are plain digit strings). -/
def isDigitString (s : String) : Bool :=
  !s.data.isEmpty && s.data.all Char.isDigit

/-- An exception `_check_size` can raise.  `SizeLimitExceeded` is only
reachable with an int `max_size`: building its message evaluates
`"... %d ... %d" % (self.current_size, self.max_size)`, and in Python 2
`%d` applied to a string raises `TypeError`, while `int()` of a truthy
non-numeric string has already raised `ValueError` in the comparison. -/
inductive PyError where
  | sizeLimit (e : SizeLimitExceeded)
  | typeError
  | valueError
deriving DecidableEq

/-- The sink (`self.buf`): a writable stream object (a `cStringIO.StringIO`
by default, or whatever `change_spy` installs).  `write` appends, `flush`
does nothing to the contents, `close` marks it closed. -/
structure Sink where
  data : List Char
  closed : Bool
deriving DecidableEq

/-- `buf.write(text)`. -/
def Sink.write (s : Sink) (text : List Char) : Sink :=
  { s with data := s.data ++ text }

/-- `buf.flush()`. -/
def Sink.flush (s : Sink) : Sink := s

/-- `buf.close()`. -/
def Sink.close (s : Sink) : Sink :=
  { s with closed := true }

/-- State of a `SpyFile`: the unread remainder of the wrapped source stream
(`self.fileobj`), the sink (`self.buf`), and the `max_size` / `current_size`
attributes. -/
structure SpyFile where
  fileobj : List Char
  buf : Sink
  max_size : PyMaxSize
  current_size : Nat
deriving DecidableEq

/-- The module-level `spy(fileobj, spyobj, max_size)` constructor:
`self.buf = spy or StringIO()`, `self.current_size = 0`. -/
def spy (fileobj : List Char) (spyobj : Option Sink) (max_size : PyMaxSize) : SpyFile :=
  { fileobj := fileobj
    buf := spyobj.getD { data := [], closed := false }
    max_size := max_size
    current_size := 0 }

/-- `SpyFile._check_size`: `if self.max_size:` then compare
`self.current_size > int(self.max_size)` and raise
`SizeLimitExceeded("... %d (max size : %d)" % (self.current_size,
self.max_size))`.  The evaluation order is modelled faithfully: `int()`
of a truthy non-numeric string raises `ValueError` during the comparison;
when the comparison holds, the `%d` formatting of a string `max_size`
raises `TypeError` before a `SizeLimitExceeded` can be constructed; only
an int `max_size` reaches the `SizeLimitExceeded` raise.  (`int(None)`
would raise `TypeError`, but `None` is falsy, so that arm is dead.) -/
def SpyFile._check_size (f : SpyFile) : Except PyError Unit :=
  if f.max_size.truthy then
    match f.max_size with
    | PyMaxSize.pyNone => Except.error PyError.typeError
    | PyMaxSize.pyInt n =>
      if f.current_size > n then
        Except.error (PyError.sizeLimit
          { current_size := f.current_size, max_size := n })
      else
        Except.ok ()
    | PyMaxSize.pyStr s =>
      if isDigitString s then
        if f.current_size > strToNat s then
          Except.error PyError.typeError
        else
          Except.ok ()
      else
        Except.error PyError.valueError
  else
    Except.ok ()

/-- `self.fileobj.read(n)` on the modelled source: with an argument, up to
`n` bytes; with no argument, everything remaining.  Returns the bytes read
and the remainder of the stream. -/
def sourceRead : Option Nat → List Char → List Char × List Char
  | Option.none, s => (s, [])
  | Option.some n, s => (s.take n, s.drop n)

/-- `self.fileobj.readline()` on the modelled source: bytes up to and
including the first newline, or everything remaining when there is none. -/
def sourceReadline : List Char → List Char × List Char
  | [] => ([], [])
  | c :: cs =>
    if c = '\n' then ([c], cs)
    else
      let r := sourceReadline cs
      (c :: r.1, r.2)

/-- The state mutation both `read` and `readline` perform before
`_check_size` runs: `self.buf.write(text)` and
`self.current_size += len(text)`, with the source advanced to `rest`. -/
def SpyFile.record (f : SpyFile) (text rest : List Char) : SpyFile :=
  { fileobj := rest
    buf := f.buf.write text
    max_size := f.max_size
    current_size := f.current_size + text.length }

/-- `SpyFile.read`: read from the source, mirror to the sink, bump the
counter, then `_check_size`; returns `text` only if the check passes, but
the state mutation has happened either way. -/
def SpyFile.read (f : SpyFile) (n : Option Nat) :
    Except PyError (List Char) × SpyFile :=
  let text := (sourceRead n f.fileobj).1
  let f' := f.record text (sourceRead n f.fileobj).2
  (Except.map (fun _ => text) f'._check_size, f')

/-- `SpyFile.readline`: same contract as `read`, delegating to the source's
line-reading behaviour. -/
def SpyFile.readline (f : SpyFile) :
    Except PyError (List Char) × SpyFile :=
  let text := (sourceReadline f.fileobj).1
  let f' := f.record text (sourceReadline f.fileobj).2
  (Except.map (fun _ => text) f'._check_size, f')

/-- `SpyFile.change_spy(fileobj)`: `self.buf.flush(); self.buf.close();
self.buf = fileobj`.  Returns the updated `SpyFile` together with the old
sink in its final state. -/
def SpyFile.change_spy (f : SpyFile) (fileobj : Sink) : SpyFile × Sink :=
  ({ f with buf := fileobj }, f.buf.flush.close)

/-- A read-side call a client can make on a `SpyFile`. -/
inductive ReadOp where
  | read (n : Option Nat)
  | readline
deriving DecidableEq

/-- Dispatch one call. -/
def SpyFile.step (f : SpyFile) : ReadOp → Except PyError (List Char) × SpyFile
  | ReadOp.read n => f.read n
  | ReadOp.readline => f.readline

/-- The bytes a given call obtains from the source at state `f`. -/
def SpyFile.opText (f : SpyFile) : ReadOp → List Char
  | ReadOp.read n => (sourceRead n f.fileobj).1
  | ReadOp.readline => (sourceReadline f.fileobj).1

/-- The part of the source left unread after a given call at state `f`. -/
def SpyFile.opRest (f : SpyFile) : ReadOp → List Char
  | ReadOp.read n => (sourceRead n f.fileobj).2
  | ReadOp.readline => (sourceReadline f.fileobj).2

/-- Run a sequence of calls, collecting each call's outcome. -/
def SpyFile.runOps (f : SpyFile) :
    List ReadOp → List (Except PyError (List Char)) × SpyFile
  | [] => ([], f)
  | op :: ops =>
    let r := f.step op
    let rest := r.2.runOps ops
    (r.1 :: rest.1, rest.2)

/-- The payloads of the successful outcomes, in order. -/
def okTexts : List (Except PyError (List Char)) → List (List Char)
  | [] => []
  | Except.ok t :: rs => t :: okTexts rs
  | Except.error _ :: rs => okTexts rs

/-- Whether every outcome in the list is a success. -/
def allOk : List (Except PyError (List Char)) → Bool
  | [] => true
  | Except.ok _ :: rs => allOk rs
  | Except.error _ :: _ => false

/-- `OSError`, as raised by `os.unlink` when the named path has no directory
entry. -/
structure OSError where
  errno : Nat
deriving DecidableEq

/-- The active backing of a `MemFile`: the initial `cStringIO.StringIO`, or
the `tempfile.TemporaryFile` adopted at migration.  `in_memory()` tests
exactly which of the two is active (`not isinstance(self._fileobj, file)`).

For a tmpfile, `linkExists` records whether a directory entry that
`os.unlink(self._fileobj.name)` could remove exists on the filesystem.
Python 2's `tempfile.TemporaryFile` on POSIX removes the file's directory
entry immediately after creating it and returns the `os.fdopen` handle
(whose `.name` attribute is the literal string `"<fdopen>"`, not a path),
so from the moment `_open_tmpfile` returns, `linkExists` is `false`. -/
inductive Backing where
  | stringio (content : List Char)
  | tmpfile (content : List Char) (linkExists : Bool)
deriving DecidableEq

/-- `getvalue()` / full content of the backing. -/
def Backing.getvalue : Backing → List Char
  | Backing.stringio c => c
  | Backing.tmpfile c _ => c

/-- `self._fileobj.write(data)` (append-only use: no `seek` is modelled, so
the position is always at end-of-data). -/
def Backing.write (b : Backing) (data : List Char) : Backing :=
  match b with
  | Backing.stringio c => Backing.stringio (c ++ data)
  | Backing.tmpfile c l => Backing.tmpfile (c ++ data) l

/-- `self.tell()`: with only appending writes, the position equals the
content length. -/
def Backing.tell (b : Backing) : Nat := b.getvalue.length

/-- State of a `MemFile`: the `maxsize` threshold and the active backing
(`self._fileobj`).  The `tmpdir`/`prefix`/`suffix` arguments only name the
temp file and are irrelevant here because the directory entry is gone
before `MemFile` ever uses the name. -/
structure MemFile where
  maxsize : Nat
  _fileobj : Backing
deriving DecidableEq

/-- `MemFile.__init__`: starts with an empty `StringIO` backing. -/
def MemFile.init (maxsize : Nat) : MemFile :=
  { maxsize := maxsize, _fileobj := Backing.stringio [] }

/-- `in_memory()`: `not isinstance(self._fileobj, file)`. -/
def MemFile.in_memory (m : MemFile) : Bool :=
  match m._fileobj with
  | Backing.stringio _ => true
  | Backing.tmpfile _ _ => false

/-- `_open_tmpfile()`: a fresh, empty `tempfile.TemporaryFile`, whose
directory entry has already been removed (see `Backing`). -/
def MemFile._open_tmpfile : Backing := Backing.tmpfile [] false

/-- `_switch_to_disk()`: read back the whole in-memory content, open the
tmpfile, and write the content to it. -/
def MemFile._switch_to_disk (m : MemFile) : MemFile :=
  let content := m._fileobj.getvalue
  { maxsize := m.maxsize, _fileobj := MemFile._open_tmpfile.write content }

/-- `write(data)`: migrate first if still in memory and
`self.tell() + len(data) > self.maxsize`, then write to the (now-current)
backing. -/
def MemFile.write (m : MemFile) (data : List Char) : MemFile :=
  if m.in_memory = true ∧ m._fileobj.tell + data.length > m.maxsize then
    let m' := m._switch_to_disk
    { m' with _fileobj := m'._fileobj.write data }
  else
    { m with _fileobj := m._fileobj.write data }

/-- `close()`: `if self._fileobj and not self.in_memory():` log and
`os.unlink(self._fileobj.name)`.  A file object is always truthy, so the
guard reduces to `not in_memory()`.  `os.unlink` removes the directory
entry when one exists and raises `OSError` (errno 2, ENOENT) otherwise;
there is no try/except around it, so the error propagates out of `close`. -/
def MemFile.close (m : MemFile) : Except OSError MemFile :=
  match m._fileobj with
  | Backing.stringio _ => Except.ok m
  | Backing.tmpfile c l =>
    if l then
      Except.ok { maxsize := m.maxsize, _fileobj := Backing.tmpfile c false }
    else
      Except.error { errno := 2 }

/-- Loop body of `fileiter(file, size, chunk_size)`: `completed` is the loop
counter; each step requests `min(size - completed, chunk_size)` bytes,
stops when the read comes back empty, otherwise yields it and advances. -/
def fileiterAux {α : Type} (file : List α) (size completed chunk_size : Nat) :
    List (List α) :=
  if h : completed < size then
    let nbytes := min (size - completed) chunk_size
    let content := file.take nbytes
    if hc : content.length = 0 then
      []
    else
      content :: fileiterAux (file.drop nbytes) size (completed + content.length) chunk_size
  else
    []
termination_by size - completed
decreasing_by
  exact Nat.sub_lt_sub_left h (Nat.lt_add_of_pos_right (Nat.pos_of_ne_zero hc))

/-- `fileiter(file, size, chunk_size)`: the list of chunks the generator
yields. -/
def fileiter {α : Type} (file : List α) (size chunk_size : Nat) : List (List α) :=
  fileiterAux file size 0 chunk_size

/-- Total number of bytes in a list of chunks. -/
def sumLens {α : Type} (chunks : List (List α)) : Nat :=
  (chunks.map List.length).sum

/-- Reachability invariant of `MemFile`: while the backing is still the
in-memory `StringIO`, its length never exceeds `maxsize` (any write that
would push it past migrates first).  Holds for `MemFile.init` and is
preserved by `write`. -/
def MemFileWF (m : MemFile) : Prop :=
  m.in_memory = true → m._fileobj.tell ≤ m.maxsize

/-! ### Helper lemmas about `SpyFile` -/

lemma sourceRead_split (n : Option Nat) (s : List Char) :
    (sourceRead n s).1 ++ (sourceRead n s).2 = s := by
  cases n with
  | none => simp [sourceRead]
  | some n => simp [sourceRead]

lemma sourceReadline_split (s : List Char) :
    (sourceReadline s).1 ++ (sourceReadline s).2 = s := by
  induction s with
  | nil => simp [sourceReadline]
  | cons c cs ih =>
    by_cases h : c = '\n'
    · simp [sourceReadline, h]
    · simp only [sourceReadline, if_neg h, List.cons_append, List.cons.injEq, true_and]
      exact ih

lemma opText_append_opRest (f : SpyFile) (op : ReadOp) :
    f.opText op ++ f.opRest op = f.fileobj := by
  cases op with
  | read n => exact sourceRead_split n f.fileobj
  | readline => exact sourceReadline_split f.fileobj

lemma step_snd (f : SpyFile) (op : ReadOp) :
    (f.step op).2 = f.record (f.opText op) (f.opRest op) := by
  cases op <;> rfl

lemma step_fst (f : SpyFile) (op : ReadOp) :
    (f.step op).1 =
      Except.map (fun _ => f.opText op)
        (f.record (f.opText op) (f.opRest op))._check_size := by
  cases op <;> rfl

lemma check_size_of_not_truthy (f : SpyFile) (h : f.max_size.truthy = false) :
    f._check_size = Except.ok () := by
  simp [SpyFile._check_size, h]

lemma step_fst_of_not_truthy (f : SpyFile) (op : ReadOp)
    (h : f.max_size.truthy = false) :
    (f.step op).1 = Except.ok (f.opText op) := by
  rw [step_fst, check_size_of_not_truthy (f.record (f.opText op) (f.opRest op)) h]
  rfl

lemma runOps_cons (f : SpyFile) (op : ReadOp) (ops : List ReadOp) :
    f.runOps (op :: ops) =
      ((f.step op).1 :: ((f.step op).2.runOps ops).1, ((f.step op).2.runOps ops).2) :=
  rfl

/-- The trace invariant behind read-through: when the size limit is disabled
(falsy `max_size`), every call succeeds, the source splits into the returned
bytes followed by the unread remainder, the sink grows by exactly the
returned bytes, the sink's closed flag is untouched, and the counter grows
by their total length. -/
lemma runOps_no_limit (ops : List ReadOp) (f : SpyFile)
    (h : f.max_size.truthy = false) :
    allOk (f.runOps ops).1 = true ∧
    (okTexts (f.runOps ops).1).flatten ++ (f.runOps ops).2.fileobj = f.fileobj ∧
    (f.runOps ops).2.buf.data = f.buf.data ++ (okTexts (f.runOps ops).1).flatten ∧
    (f.runOps ops).2.buf.closed = f.buf.closed ∧
    (f.runOps ops).2.current_size
      = f.current_size + (okTexts (f.runOps ops).1).flatten.length ∧
    (f.runOps ops).2.max_size = f.max_size := by
  induction ops generalizing f with
  | nil => simp [SpyFile.runOps, okTexts, allOk]
  | cons op ops ih =>
    have hms : (f.step op).2.max_size = f.max_size := by rw [step_snd]; rfl
    have hfo : (f.step op).2.fileobj = f.opRest op := by rw [step_snd]; rfl
    have hbd : (f.step op).2.buf.data = f.buf.data ++ f.opText op := by
      rw [step_snd]; rfl
    have hbc : (f.step op).2.buf.closed = f.buf.closed := by rw [step_snd]; rfl
    have hcs : (f.step op).2.current_size
        = f.current_size + (f.opText op).length := by rw [step_snd]; rfl
    have h2 : (f.step op).2.max_size.truthy = false := by rw [hms]; exact h
    obtain ⟨ih1, ih2, ih3, ih4, ih5, ih6⟩ := ih (f.step op).2 h2
    have hok := step_fst_of_not_truthy f op h
    rw [runOps_cons, hok]
    refine ⟨?_, ?_, ?_, ?_, ?_, ?_⟩
    · simpa [allOk] using ih1
    · rw [okTexts, List.flatten_cons, List.append_assoc, ih2, hfo,
        opText_append_opRest]
    · rw [okTexts, List.flatten_cons, ih3, hbd, List.append_assoc]
    · rw [ih4, hbc]
    · rw [okTexts, List.flatten_cons, ih5, hcs, List.length_append]
      omega
    · rw [ih6, hms]

lemma pyInt_truthy (M : Nat) (hM : 0 < M) : (PyMaxSize.pyInt M).truthy = true := by
  simp only [PyMaxSize.truthy, bne_iff_ne, ne_eq]
  omega

lemma check_size_pyInt (f : SpyFile) (M : Nat) (hM : 0 < M)
    (hmax : f.max_size = PyMaxSize.pyInt M) :
    f._check_size =
      if M < f.current_size then
        Except.error (PyError.sizeLimit
          { current_size := f.current_size, max_size := M })
      else
        Except.ok () := by
  have ht : (PyMaxSize.pyInt M).truthy = true := pyInt_truthy M hM
  simp only [SpyFile._check_size, hmax, ht, if_true, gt_iff_lt]

/-- With a string `max_size`, `_check_size` never raises
`SizeLimitExceeded`: when the limit fires, the `%d` formatting of the
string in the exception message raises `TypeError`, and a truthy
non-numeric string has already failed at `int()` with `ValueError`. -/
lemma check_size_pyStr_no_sizeLimit (f : SpyFile) (s : String)
    (hmax : f.max_size = PyMaxSize.pyStr s) :
    f._check_size = Except.ok () ∨
    f._check_size = Except.error PyError.typeError ∨
    f._check_size = Except.error PyError.valueError := by
  simp only [SpyFile._check_size, hmax]
  split
  · split
    · split
      · exact Or.inr (Or.inl rfl)
      · exact Or.inl rfl
    · exact Or.inr (Or.inr rfl)
  · exact Or.inl rfl

/-! ### Helper lemmas about `MemFile` -/

lemma Backing.write_getvalue (b : Backing) (d : List Char) :
    (b.write d).getvalue = b.getvalue ++ d := by
  cases b <;> rfl

lemma Backing.write_tell (b : Backing) (d : List Char) :
    (b.write d).tell = b.tell + d.length := by
  cases b <;> simp [Backing.tell, Backing.write, Backing.getvalue]

lemma in_memory_write_backing (m : MemFile) (d : List Char) :
    ({ m with _fileobj := m._fileobj.write d } : MemFile).in_memory
      = m.in_memory := by
  cases h : m._fileobj <;> simp [MemFile.in_memory, Backing.write, h]

/-! ### Helper lemmas about `fileiter` -/

lemma fileiterAux_sum_le {α : Type} (file : List α) (size completed c : Nat)
    (h : completed ≤ size) :
    completed + sumLens (fileiterAux file size completed c) ≤ size := by
  rw [fileiterAux]
  simp only []
  split
  · next hlt =>
    split
    · next => simpa [sumLens] using h
    · next hc =>
      have hlen : (file.take (min (size - completed) c)).length
          ≤ min (size - completed) c := by
        rw [List.length_take]
        exact Nat.min_le_left _ _
      have ih := fileiterAux_sum_le (file.drop (min (size - completed) c)) size
        (completed + (file.take (min (size - completed) c)).length) c
        (by omega)
      simp only [sumLens, List.map_cons, List.sum_cons] at ih ⊢
      omega
  · next => simpa [sumLens] using h
termination_by size - completed
decreasing_by
  simp only [List.length_take] at *
  omega

lemma fileiterAux_sum_eq {α : Type} (file : List α) (size completed c : Nat)
    (hc0 : 0 < c) (h : completed ≤ size) :
    completed + sumLens (fileiterAux file size completed c)
      = min size (completed + file.length) := by
  rw [fileiterAux]
  simp only []
  split
  · next hlt =>
    split
    · next hz =>
      have : min (min (size - completed) c) file.length = 0 := by
        rw [← List.length_take]
        exact hz
      simp only [sumLens, List.map_nil, List.sum_nil]
      omega
    · next hc =>
      have hlen : (file.take (min (size - completed) c)).length
          = min (min (size - completed) c) file.length := List.length_take _ _
      have hdrop : (file.drop (min (size - completed) c)).length
          = file.length - min (size - completed) c := List.length_drop _ _
      have ih := fileiterAux_sum_eq (file.drop (min (size - completed) c)) size
        (completed + (file.take (min (size - completed) c)).length) c hc0
        (by rw [hlen]; omega)
      rw [hdrop] at ih
      simp only [sumLens, List.map_cons, List.sum_cons] at ih ⊢
      omega
  · next => simp only [sumLens, List.map_nil, List.sum_nil]; omega
termination_by size - completed
decreasing_by
  simp only [List.length_take] at *
  omega

lemma fileiterAux_chunk_bounds {α : Type} (file : List α) (size completed c : Nat) :
    ∀ ch ∈ fileiterAux file size completed c, ch ≠ [] ∧ ch.length ≤ c := by
  rw [fileiterAux]
  simp only []
  split
  · next hlt =>
    split
    · next => intro ch hch; cases hch
    · next hc =>
      intro ch hch
      rcases List.mem_cons.mp hch with hhead | htail
      · subst hhead
        refine ⟨fun hnil => hc (by rw [hnil]; rfl), ?_⟩
        calc (file.take (min (size - completed) c)).length
            ≤ min (size - completed) c := by
              rw [List.length_take]; exact Nat.min_le_left _ _
          _ ≤ c := Nat.min_le_right _ _
      · exact fileiterAux_chunk_bounds
          (file.drop (min (size - completed) c)) size
          (completed + (file.take (min (size - completed) c)).length) c ch htail
  · next => intro ch hch; cases hch
termination_by size - completed
decreasing_by
  simp only [List.length_take] at *
  omega

/-! ### Claim theorems -/

/-- Claim C1: read-through is lossless and order-preserving.  For a
`SpyFile` freshly wrapped around a source `S` (empty sink, zero counter,
size limit disabled) and any sequence of `read`/`readline` calls, every
call returns normally, the concatenation of the returned byte strings is
exactly the prefix of `S` consumed so far (the unread remainder is the
matching suffix), the sink holds exactly that prefix, and `current_size`
equals its length.  Concretely, on a source yielding `"hello\nworld\n"`,
two `readline()` calls return `"hello\n"` then `"world\n"`, the sink then
holds exactly `"hello\nworld\n"`, and `current_size = 12`. -/
theorem C1_read_through_lossless (S : List Char) (ops : List ReadOp)
    (f : SpyFile) (hfo : f.fileobj = S) (hbuf : f.buf.data = [])
    (hcs : f.current_size = 0) (hmax : f.max_size.truthy = false) :
    (allOk (f.runOps ops).1 = true ∧
      (okTexts (f.runOps ops).1).flatten ++ (f.runOps ops).2.fileobj = S ∧
      (f.runOps ops).2.buf.data = (okTexts (f.runOps ops).1).flatten ∧
      (f.runOps ops).2.current_size = (okTexts (f.runOps ops).1).flatten.length) ∧
    (((spy ("hello\nworld\n".toList) Option.none PyMaxSize.pyNone).runOps
        [ReadOp.readline, ReadOp.readline]).1
        = [Except.ok ("hello\n".toList), Except.ok ("world\n".toList)] ∧
      ((spy ("hello\nworld\n".toList) Option.none PyMaxSize.pyNone).runOps
        [ReadOp.readline, ReadOp.readline]).2.buf.data = "hello\nworld\n".toList ∧
      ((spy ("hello\nworld\n".toList) Option.none PyMaxSize.pyNone).runOps
        [ReadOp.readline, ReadOp.readline]).2.current_size = 12) := by
  obtain ⟨h1, h2, h3, _, h5, _⟩ := runOps_no_limit ops f hmax
  refine ⟨⟨h1, ?_, ?_, ?_⟩, rfl, rfl, rfl⟩
  · rw [← hfo]; exact h2
  · rw [h3, hbuf, List.nil_append]
  · rw [h5, hcs, Nat.zero_add]

/-- Witness for C1 at the concrete `"hello\nworld\n"` scenario. -/
theorem C1_read_through_lossless_witness :
    (allOk ((spy ("hello\nworld\n".toList) Option.none PyMaxSize.pyNone).runOps
        [ReadOp.readline, ReadOp.readline]).1 = true ∧
      (okTexts ((spy ("hello\nworld\n".toList) Option.none PyMaxSize.pyNone).runOps
        [ReadOp.readline, ReadOp.readline]).1).flatten ++
        ((spy ("hello\nworld\n".toList) Option.none PyMaxSize.pyNone).runOps
          [ReadOp.readline, ReadOp.readline]).2.fileobj = "hello\nworld\n".toList ∧
      ((spy ("hello\nworld\n".toList) Option.none PyMaxSize.pyNone).runOps
        [ReadOp.readline, ReadOp.readline]).2.buf.data
        = (okTexts ((spy ("hello\nworld\n".toList) Option.none PyMaxSize.pyNone).runOps
            [ReadOp.readline, ReadOp.readline]).1).flatten ∧
      ((spy ("hello\nworld\n".toList) Option.none PyMaxSize.pyNone).runOps
        [ReadOp.readline, ReadOp.readline]).2.current_size
        = (okTexts ((spy ("hello\nworld\n".toList) Option.none PyMaxSize.pyNone).runOps
            [ReadOp.readline, ReadOp.readline]).1).flatten.length) ∧
    (((spy ("hello\nworld\n".toList) Option.none PyMaxSize.pyNone).runOps
        [ReadOp.readline, ReadOp.readline]).1
        = [Except.ok ("hello\n".toList), Except.ok ("world\n".toList)] ∧
      ((spy ("hello\nworld\n".toList) Option.none PyMaxSize.pyNone).runOps
        [ReadOp.readline, ReadOp.readline]).2.buf.data = "hello\nworld\n".toList ∧
      ((spy ("hello\nworld\n".toList) Option.none PyMaxSize.pyNone).runOps
        [ReadOp.readline, ReadOp.readline]).2.current_size = 12) :=
  C1_read_through_lossless ("hello\nworld\n".toList) [ReadOp.readline, ReadOp.readline]
    (spy ("hello\nworld\n".toList) Option.none PyMaxSize.pyNone) rfl rfl rfl rfl

/-- Claim C2: with a positive int `max_size = M`, a `read`/`readline` call
returns normally whenever the cumulative count after the call is still at
most `M` (strictly-greater-than semantics), and a call whose completion
takes the count above `M` raises `SizeLimitExceeded` — with the call's
bytes already appended to the sink and added to the counter when the
failure is raised. -/
theorem C2_size_limit_strict (f : SpyFile) (M : Nat) (op : ReadOp)
    (hM : 0 < M) (hmax : f.max_size = PyMaxSize.pyInt M) :
    ((f.step op).2.current_size ≤ M → (f.step op).1 = Except.ok (f.opText op)) ∧
    (M < (f.step op).2.current_size →
      (f.step op).1 = Except.error (PyError.sizeLimit
          { current_size := (f.step op).2.current_size, max_size := M }) ∧
      (f.step op).2.buf.data = f.buf.data ++ f.opText op ∧
      (f.step op).2.current_size = f.current_size + (f.opText op).length) := by
  have hgmax : (f.record (f.opText op) (f.opRest op)).max_size
      = PyMaxSize.pyInt M := hmax
  have hck := check_size_pyInt (f.record (f.opText op) (f.opRest op)) M hM hgmax
  constructor
  · intro hle
    rw [step_snd] at hle
    rw [step_fst, hck, if_neg (Nat.not_lt.mpr hle)]
    rfl
  · intro hgt
    rw [step_snd] at hgt
    refine ⟨?_, ?_, ?_⟩
    · rw [step_fst, step_snd, hck, if_pos hgt]
      rfl
    · rw [step_snd]; rfl
    · rw [step_snd]; rfl

/-- Witness for C2: `max_size = 2`, a 4-byte `read()` trips the limit with
the bytes recorded in the sink and counter. -/
theorem C2_size_limit_strict_witness :
    (((spy ("abcd".toList) Option.none (PyMaxSize.pyInt 2)).step
        (ReadOp.read Option.none)).1
      = Except.error (PyError.sizeLimit { current_size := 4, max_size := 2 })) ∧
    ((spy ("abcd".toList) Option.none (PyMaxSize.pyInt 2)).step
        (ReadOp.read Option.none)).2.buf.data = "abcd".toList ∧
    ((spy ("abcd".toList) Option.none (PyMaxSize.pyInt 2)).step
        (ReadOp.read Option.none)).2.current_size = 4 :=
  (C2_size_limit_strict (spy ("abcd".toList) Option.none (PyMaxSize.pyInt 2)) 2
    (ReadOp.read Option.none) (by decide) rfl).2 (by decide)

/-- Claim C4, counterexample: on the triggering call the caller does not
receive the bytes.  With `max_size = 2`, `read()` on a 4-byte source trips
the limit and the call's outcome is the raised `SizeLimitExceeded`, not a
normal return of the bytes read — `raise` fires before the `return text`
line, so the bytes never reach the caller as a return value. -/
theorem C4_counterexample_trigger_returns_nothing :
    ((spy ("abcd".toList) Option.none (PyMaxSize.pyInt 2)).read Option.none).1
      = Except.error (PyError.sizeLimit { current_size := 4, max_size := 2 }) ∧
    ((spy ("abcd".toList) Option.none (PyMaxSize.pyInt 2)).read Option.none).1
      ≠ Except.ok ("abcd".toList) := by
  refine ⟨rfl, fun hcontra => ?_⟩
  have herr : ((spy ("abcd".toList) Option.none (PyMaxSize.pyInt 2)).read
      Option.none).1 = Except.error (PyError.sizeLimit
        { current_size := 4, max_size := 2 }) := rfl
  rw [herr] at hcontra
  exact Except.noConfusion hcontra

/-- Claim C4, amended: on the call that trips the size limit, the bytes
read have been appended to the sink and added to the counter before the
failure is raised, but the call raises `SizeLimitExceeded` instead of
returning — the caller can recover the bytes from the sink, not from the
call's return value. -/
theorem C4_amended_bytes_recorded_not_returned (f : SpyFile) (op : ReadOp)
    (M : Nat) (hM : 0 < M) (hmax : f.max_size = PyMaxSize.pyInt M)
    (h : M < f.current_size + (f.opText op).length) :
    (f.step op).1 = Except.error (PyError.sizeLimit
        { current_size := f.current_size + (f.opText op).length, max_size := M }) ∧
    (f.step op).2.buf.data = f.buf.data ++ f.opText op ∧
    (f.step op).2.current_size = f.current_size + (f.opText op).length := by
  have hgmax : (f.record (f.opText op) (f.opRest op)).max_size
      = PyMaxSize.pyInt M := hmax
  have hck := check_size_pyInt (f.record (f.opText op) (f.opRest op)) M hM hgmax
  have hgt : M < (f.record (f.opText op) (f.opRest op)).current_size := h
  refine ⟨?_, ?_, ?_⟩
  · rw [step_fst, hck, if_pos hgt]
    rfl
  · rw [step_snd]; rfl
  · rw [step_snd]; rfl

/-- Witness for the amended C4: `max_size = 3`, `readline()` on a source
yielding `"hiho\n"` raises with the 5 bytes mirrored and counted. -/
theorem C4_amended_witness :
    ((spy ("hiho\n".toList) Option.none (PyMaxSize.pyInt 3)).step
        ReadOp.readline).1
      = Except.error (PyError.sizeLimit { current_size := 5, max_size := 3 }) ∧
    ((spy ("hiho\n".toList) Option.none (PyMaxSize.pyInt 3)).step
        ReadOp.readline).2.buf.data = "hiho\n".toList ∧
    ((spy ("hiho\n".toList) Option.none (PyMaxSize.pyInt 3)).step
        ReadOp.readline).2.current_size = 5 :=
  C4_amended_bytes_recorded_not_returned
    (spy ("hiho\n".toList) Option.none (PyMaxSize.pyInt 3)) ReadOp.readline 3
    (by decide) rfl (by decide)

/-- Claim C8: `change_spy(newSink)` flushes and closes the current sink
(its contents are unchanged by the flush and it ends up closed), attaches
the new sink, leaves `current_size`, the source stream state and
`max_size` untouched, and a subsequent call mirrors its bytes only to the
new sink. -/
theorem C8_change_spy_swaps_sink (f : SpyFile) (s : Sink) (op : ReadOp) :
    (f.change_spy s).2 = { data := f.buf.data, closed := true } ∧
    (f.change_spy s).1.buf = s ∧
    (f.change_spy s).1.current_size = f.current_size ∧
    (f.change_spy s).1.fileobj = f.fileobj ∧
    (f.change_spy s).1.max_size = f.max_size ∧
    ((f.change_spy s).1.step op).2.buf.data = s.data ++ f.opText op := by
  refine ⟨rfl, rfl, rfl, rfl, rfl, ?_⟩
  rw [step_snd]
  rfl

/-- Claim C9: once `current_size` has exceeded the configured int
`max_size = M`, the predicate `M < current_size` is preserved by every
operation and every subsequent `read`/`readline` raises
`SizeLimitExceeded` — after still forwarding that call's bytes to the
sink and adding their length to the counter; no later call returns
normally, and `change_spy` leaves the exceeded state intact.  (A size
limit that arrived as a string never yields `SizeLimitExceeded` at all:
the `%d` formatting of the exception message raises `TypeError`, or
`int()` raises `ValueError` first — see `check_size_pyStr_no_sizeLimit` —
so the sticky `SizeLimitExceeded` behaviour is a property of int limits,
the type the code's own `SpyHTTPResponse` caller supplies.) -/
theorem C9_limit_exceeded_is_sticky (f : SpyFile) (op : ReadOp) (s : Sink)
    (M : Nat) (hM : 0 < M) (hmax : f.max_size = PyMaxSize.pyInt M)
    (h : M < f.current_size) :
    (f.step op).1 = Except.error (PyError.sizeLimit
        { current_size := (f.step op).2.current_size, max_size := M }) ∧
    (f.step op).2.max_size = f.max_size ∧
    M < (f.step op).2.current_size ∧
    (f.step op).2.buf.data = f.buf.data ++ f.opText op ∧
    (f.step op).2.current_size = f.current_size + (f.opText op).length ∧
    (f.change_spy s).1.max_size = f.max_size ∧
    (f.change_spy s).1.current_size = f.current_size := by
  have hgmax : (f.record (f.opText op) (f.opRest op)).max_size
      = PyMaxSize.pyInt M := hmax
  have hck := check_size_pyInt (f.record (f.opText op) (f.opRest op)) M hM hgmax
  have hcur : (f.record (f.opText op) (f.opRest op)).current_size
      = f.current_size + (f.opText op).length := rfl
  have hgt : M < (f.record (f.opText op) (f.opRest op)).current_size := by
    rw [hcur]; omega
  refine ⟨?_, ?_, ?_, ?_, ?_, rfl, rfl⟩
  · rw [step_fst, step_snd, hck, if_pos hgt]
    rfl
  · rw [step_snd]; rfl
  · rw [step_snd, hcur]; omega
  · rw [step_snd]; rfl
  · rw [step_snd]; exact hcur

/-- Witness for C9: after `read()` consumed 3 bytes against `max_size = 1`,
a further `readline()` (even at end-of-stream) still raises. -/
theorem C9_limit_exceeded_is_sticky_witness :
    (((spy ("abc".toList) Option.none (PyMaxSize.pyInt 1)).read Option.none).2.step
        ReadOp.readline).1
      = Except.error (PyError.sizeLimit
          { current_size := (((spy ("abc".toList) Option.none
              (PyMaxSize.pyInt 1)).read Option.none).2.step
                ReadOp.readline).2.current_size,
            max_size := 1 }) ∧
    (((spy ("abc".toList) Option.none (PyMaxSize.pyInt 1)).read
        Option.none).2.step ReadOp.readline).2.max_size = PyMaxSize.pyInt 1 ∧
    (1 : Nat) < (((spy ("abc".toList) Option.none (PyMaxSize.pyInt 1)).read
        Option.none).2.step ReadOp.readline).2.current_size ∧
    (((spy ("abc".toList) Option.none (PyMaxSize.pyInt 1)).read
        Option.none).2.step ReadOp.readline).2.buf.data = "abc".toList ∧
    (((spy ("abc".toList) Option.none (PyMaxSize.pyInt 1)).read
        Option.none).2.step ReadOp.readline).2.current_size = 3 ∧
    ((((spy ("abc".toList) Option.none (PyMaxSize.pyInt 1)).read
        Option.none).2.change_spy { data := [], closed := false }).1.max_size
      = PyMaxSize.pyInt 1) ∧
    ((((spy ("abc".toList) Option.none (PyMaxSize.pyInt 1)).read
        Option.none).2.change_spy { data := [], closed := false }).1.current_size
      = 3) :=
  C9_limit_exceeded_is_sticky
    ((spy ("abc".toList) Option.none (PyMaxSize.pyInt 1)).read Option.none).2
    ReadOp.readline { data := [], closed := false } 1 (by decide) rfl (by decide)

/-- Claim C10: a falsy `max_size` — `None`, the int `0`, or the empty
string — disables the size limit entirely: no `read`/`readline` call in
any sequence ever raises `SizeLimitExceeded`, no matter how many bytes are
read. -/
theorem C10_falsy_max_size_disables_limit (f : SpyFile) (ops : List ReadOp)
    (h : f.max_size = PyMaxSize.pyNone ∨ f.max_size = PyMaxSize.pyInt 0 ∨
      f.max_size = PyMaxSize.pyStr "") :
    allOk (f.runOps ops).1 = true := by
  have ht : f.max_size.truthy = false := by
    rcases h with h | h | h <;> rw [h] <;> decide
  exact (runOps_no_limit ops f ht).1

/-- Witness for C10: `max_size = 0`, two reads of a 3-byte source both
return normally. -/
theorem C10_falsy_max_size_disables_limit_witness :
    allOk ((spy ("abc".toList) Option.none (PyMaxSize.pyInt 0)).runOps
      [ReadOp.read (Option.some 2), ReadOp.read Option.none]).1 = true :=
  C10_falsy_max_size_disables_limit
    (spy ("abc".toList) Option.none (PyMaxSize.pyInt 0))
    [ReadOp.read (Option.some 2), ReadOp.read Option.none]
    (Or.inr (Or.inl rfl))

/-- Claim C3: for a reachable `MemFile` (in-memory length never above
`maxsize` while in memory), `write` keeps the buffer in memory exactly
when it was in memory and the write fits (`tell + len(data) ≤ maxsize`) —
so the memory-to-disk transition is triggered exactly by the first
oversize write and, `false` being absorbing, happens at most once; the
content is always extended byte-for-byte by the written data; a single
write larger than `maxsize` migrates first and the post-migration tmpfile
backing receives previous content plus that write directly; an empty write
never changes the backing; and reachability is preserved. -/
theorem C3_threshold_migration (m : MemFile) (data : List Char)
    (hwf : MemFileWF m) :
    ((m.write data).in_memory = true ↔
      (m.in_memory = true ∧ m._fileobj.tell + data.length ≤ m.maxsize)) ∧
    (m.write data)._fileobj.getvalue = m._fileobj.getvalue ++ data ∧
    (m.in_memory = true → m.maxsize < m._fileobj.tell + data.length →
      (m.write data)._fileobj
        = Backing.tmpfile (m._fileobj.getvalue ++ data) false) ∧
    (data = [] → (m.write data).in_memory = m.in_memory) ∧
    MemFileWF (m.write data) := by
  unfold MemFile.write
  by_cases hcond : m.in_memory = true ∧ m._fileobj.tell + data.length > m.maxsize
  · rw [if_pos hcond]
    refine ⟨?_, ?_, ?_, ?_, ?_⟩
    · constructor
      · intro hmem
        exact absurd hmem (by simp [MemFile.in_memory, MemFile._switch_to_disk,
          MemFile._open_tmpfile, Backing.write])
      · rintro ⟨_, hle⟩
        omega
    · rfl
    · intro _ _
      rfl
    · intro hnil
      subst hnil
      have h2 := hcond.2
      rw [List.length_nil] at h2
      exact absurd (hwf hcond.1) (Nat.not_le.mpr (by omega))
    · intro hmem
      exact absurd hmem (by simp [MemFile.in_memory, MemFile._switch_to_disk,
        MemFile._open_tmpfile, Backing.write])
  · rw [if_neg hcond]
    have hmemw := in_memory_write_backing m data
    refine ⟨?_, Backing.write_getvalue m._fileobj data, ?_, ?_, ?_⟩
    · rw [hmemw]
      constructor
      · intro hmem
        refine ⟨hmem, ?_⟩
        by_contra hgt
        exact hcond ⟨hmem, by omega⟩
      · exact fun hp => hp.1
    · intro h1 h2
      exact absurd ⟨h1, by omega⟩ hcond
    · intro _
      exact hmemw
    · intro hmem
      rw [hmemw] at hmem
      have hle : m._fileobj.tell + data.length ≤ m.maxsize := by
        by_contra hgt
        exact hcond ⟨hmem, by omega⟩
      show ({ m with _fileobj := m._fileobj.write data } : MemFile)._fileobj.tell
        ≤ m.maxsize
      rw [Backing.write_tell]
      exact hle

/-- Witness for C3: `maxsize = 3`, a single 5-byte write into a fresh
buffer migrates and lands, with the previously empty content preserved. -/
theorem C3_threshold_migration_witness :
    (((MemFile.init 3).write ("abcde".toList)).in_memory = true ↔
      ((MemFile.init 3).in_memory = true ∧
        (MemFile.init 3)._fileobj.tell + ("abcde".toList).length ≤ 3)) ∧
    ((MemFile.init 3).write ("abcde".toList))._fileobj.getvalue
      = (MemFile.init 3)._fileobj.getvalue ++ "abcde".toList ∧
    ((MemFile.init 3).write ("abcde".toList))._fileobj
      = Backing.tmpfile ((MemFile.init 3)._fileobj.getvalue ++ "abcde".toList)
          false :=
  have h := C3_threshold_migration (MemFile.init 3) ("abcde".toList)
    (fun _ => by decide)
  ⟨h.1, h.2.1, h.2.2.1 rfl (by decide)⟩

/-- Claim C5 (code bug): `close()` on a `MemFile` that migrated to disk
does not delete the backing file and complete — it raises `OSError`.
Python 2's `tempfile.TemporaryFile` removed the directory entry when the
tmpfile was opened (and the handle it returns is an `os.fdopen` object
whose `.name` is `"<fdopen>"`, not a path), so the `os.unlink` inside
`close` necessarily fails, contradicting the method's own docstring
("Deletes the temp file if created") and the comment above
`_open_tmpfile`; the handle is never released either.  `close()` on a
never-migrated instance is, as claimed, a no-op. -/
theorem C5_close_raises_after_migration :
    ((MemFile.init 1).write ("ab".toList)).in_memory = false ∧
    ((MemFile.init 1).write ("ab".toList)).close
      = Except.error { errno := 2 } ∧
    ((MemFile.init 5).write ("ab".toList)).in_memory = true ∧
    ((MemFile.init 5).write ("ab".toList)).close
      = Except.ok ((MemFile.init 5).write ("ab".toList)) :=
  ⟨rfl, rfl, rfl, rfl⟩

/-- Claim C6, counterexample: a deletion failure during `close` — the temp
file's directory entry being gone, which `TemporaryFile` guarantees —
does make `close` fail: it returns the raised `OSError`, not success. -/
theorem C6_counterexample_close_fails :
    ((MemFile.init 0).write ("a".toList)).close
      = Except.error { errno := 2 } := rfl

/-- Claim C6, amended: a cleanup failure during `close` is not caught:
whenever the backing is the disk tmpfile and no directory entry exists for
its name, `close` raises the `OSError` to the caller instead of completing
(there is no try/except around `os.unlink`). -/
theorem C6_amended_cleanup_failure_propagates (m : MemFile) (c : List Char)
    (h : m._fileobj = Backing.tmpfile c false) :
    m.close = Except.error { errno := 2 } := by
  simp [MemFile.close, h]

/-- Witness for the amended C6: the migrated one-byte buffer. -/
theorem C6_amended_cleanup_failure_propagates_witness :
    ((MemFile.init 0).write ("b".toList)).close
      = Except.error { errno := 2 } :=
  C6_amended_cleanup_failure_propagates ((MemFile.init 0).write ("b".toList))
    ("b".toList) rfl

/-- Claim C7: `fileiter` consumes at most `size` bytes and, with a
positive chunk size, yields exactly `min size file.length` bytes in
total — stopping once the counter reaches `size` or the stream is
exhausted, whichever is first; every yielded chunk is nonempty and at most
`chunk_size` long; concretely, over a 25-byte stream with chunk size 10 it
yields chunks of lengths 10, 10, 5, and over a 17-byte stream it yields
10, 7 and terminates early without error. -/
theorem C7_fileiter_chunking {α : Type} (file : List α) (size chunk_size : Nat)
    (hc : 0 < chunk_size) :
    sumLens (fileiter file size chunk_size) = min size file.length ∧
    sumLens (fileiter file size chunk_size) ≤ size ∧
    (fileiter (List.range 25) 25 10).map List.length = [10, 10, 5] ∧
    (fileiter (List.range 17) 25 10).map List.length = [10, 7] := by
  refine ⟨?_, ?_, ?_, ?_⟩
  · have := fileiterAux_sum_eq file size 0 chunk_size hc (Nat.zero_le size)
    simpa [fileiter] using this
  · have := fileiterAux_sum_le file size 0 chunk_size (Nat.zero_le size)
    simpa [fileiter] using this
  · simp [fileiter, fileiterAux]
  · simp [fileiter, fileiterAux]

/-- Witness for C7 at the 17-byte stream. -/
theorem C7_fileiter_chunking_witness :
    sumLens (fileiter (List.range 17) 25 10) = min 25 (List.range 17).length ∧
    sumLens (fileiter (List.range 17) 25 10) ≤ 25 ∧
    (fileiter (List.range 25) 25 10).map List.length = [10, 10, 5] ∧
    (fileiter (List.range 17) 25 10).map List.length = [10, 7] :=
  C7_fileiter_chunking (List.range 17) 25 10 (by decide)

/-- The chunk-shape part of C7 separately: every chunk `fileiter` yields
is nonempty and no longer than `chunk_size`. -/
theorem fileiter_chunk_bounds {α : Type} (file : List α) (size chunk_size : Nat) :
    ∀ ch ∈ fileiter file size chunk_size, ch ≠ [] ∧ ch.length ≤ chunk_size :=
  fileiterAux_chunk_bounds file size 0 chunk_size

end Liveweb
